import Mathlib

/-!
Verification of the Ibis personal knowledge-base API.

The development shallowly embeds the repository data model
(`api/models.py`), its validation layer (`api/serializers.py`) and its
access layer (`api/views.py`).  Records are Lean structures, the
relational store is an association list per entity keyed by primary key,
timestamps are integers, and the framework behaviour relevant to the
claims (field resolution, per-field validators, object-level `validate`,
owner stamping, `on_delete` semantics, uniqueness constraints) is made
explicit.  Python exceptions that escape validation (`KeyError`,
`TypeError`, `AttributeError`, database `IntegrityError`) are modelled as
`crash` outcomes, distinct from a caught `ValidationError` which produces
an error response.
-/

namespace Ibis

abbrev UserId := Nat
abbrev Pk := Nat

/-- `api.models.Source`: name, accessed (default now), author, publisher,
published (nullable), owning user. -/
structure Source where
  name : String
  accessed : Int
  author : String
  publisher : String
  published : Option Int
  user : UserId
deriving DecidableEq, Repr

/-- `api.models.Period`: nullable start and end timestamps, owning user.
`end` is a Lean keyword, hence the guillemets. -/
structure Period where
  start : Option Int
  «end» : Option Int
  user : UserId
deriving DecidableEq, Repr

/-- `api.models.TagType`: name, owning user. -/
structure TagType where
  name : String
  user : UserId
deriving DecidableEq, Repr

/-- `api.models.Tag`: name, text, nullable type reference (`SET_NULL`),
self many-to-many `tags`, owning user. -/
structure Tag where
  name : String
  text : String
  type : Option Pk
  tags : List Pk
  user : UserId
deriving DecidableEq, Repr

/-- `api.models.Alias`: name, mandatory tag reference (`CASCADE`), owning
user. -/
structure Alias where
  name : String
  tag : Pk
  user : UserId
deriving DecidableEq, Repr

/-- `api.models.Fact`: key (blank allowed), value, nullable context tag
(`CASCADE`), nullable period (`SET_NULL`), many-to-many tags and sources,
owning user. -/
structure Fact where
  key : String
  value : String
  context : Option Pk
  period : Option Pk
  tags : List Pk
  sources : List Pk
  user : UserId
deriving DecidableEq, Repr

/-- The relational store: one association list per entity, keyed by
primary key, plus the next fresh primary key. -/
structure Store where
  sources : List (Pk × Source)
  periods : List (Pk × Period)
  tagTypes : List (Pk × TagType)
  tags : List (Pk × Tag)
  aliases : List (Pk × Alias)
  facts : List (Pk × Fact)
  nextId : Pk
deriving DecidableEq, Repr

def emptyStore : Store := ⟨[], [], [], [], [], [], 0⟩

/-- First record with the given primary key, if any. -/
def lookup {α : Type} (l : List (Pk × α)) (pk : Pk) : Option α :=
  (l.find? (fun p => p.1 == pk)).map (fun p => p.2)

/-- Apply `g` to every record, keeping keys. -/
def mapVals {α : Type} (g : α → α) (l : List (Pk × α)) : List (Pk × α) :=
  l.map (fun p => (p.1, g p.2))

/-- Overwrite the record stored under `pk`. -/
def setRecord {α : Type} (l : List (Pk × α)) (pk : Pk) (a : α) : List (Pk × α) :=
  l.map (fun p => if p.1 == pk then (pk, a) else p)

def sourceOwner (st : Store) (pk : Pk) : Option UserId :=
  (lookup st.sources pk).map Source.user

def periodOwner (st : Store) (pk : Pk) : Option UserId :=
  (lookup st.periods pk).map Period.user

def tagTypeOwner (st : Store) (pk : Pk) : Option UserId :=
  (lookup st.tagTypes pk).map TagType.user

def tagOwner (st : Store) (pk : Pk) : Option UserId :=
  (lookup st.tags pk).map Tag.user

def factOwner (st : Store) (pk : Pk) : Option UserId :=
  (lookup st.facts pk).map Fact.user

/-- Message of the `ValidationError` raised by
`OwnedModelSerializer._validate_owned`. -/
def forbiddenMsg : String := "Accessing another user\x27s objects is forbidden"

/-- Framework message when a primary key does not resolve. -/
def invalidPkMsg : String := "Invalid pk - object does not exist."

/-- Framework message for a missing required field. -/
def requiredMsg : String := "This field is required."

/-- Message of the `ValidationError` raised by `PeriodSerializer.validate`. -/
def orderMsg : String := "Start must come before end"

/-- A validation-layer outcome component: a field-scoped error, a
non-field error, or an uncaught Python exception. -/
inductive VErr where
  | field (name : String) (msg : String)
  | nonField (msg : String)
  | keyError (key : String)
  | typeError
  | attributeError
  | integrityError
deriving DecidableEq, Repr

/-- Outcome of a write request: success with the new store and the
written record's key, a 400 response carrying validation errors, a 404,
or an uncaught exception (500). -/
inductive WResult where
  | ok (st : Store) (pk : Pk)
  | invalid (errs : List VErr)
  | notFound
  | crash (e : VErr)
deriving DecidableEq, Repr

/-- `OwnedModelSerializer._validate_owned` on an already-resolved
referenced object: error exactly when the object owner differs from
the requesting user. -/
def validateOwned (u : UserId) (owner : UserId) (field : String) : List VErr :=
  if owner == u then [] else [.field field forbiddenMsg]

/-- A single optional (nullable) reference field carrying a
`validate_<field>` ownership check.  `none`: field absent, nothing to do.
`some none`: an explicit null is passed through empty-value handling and
then handed to the `validate_<field>` method, whose `value.user` raises
`AttributeError`.  `some (some pk)`: the key is resolved against the
store (a failure is a field-scoped error) and then ownership-checked. -/
def singleRefCheck (ownerOf : Pk → Option UserId) (u : UserId) (field : String) :
    Option (Option Pk) → Except VErr (List VErr)
  | none => .ok []
  | some none => .error .attributeError
  | some (some pk) =>
    match ownerOf pk with
    | none => .ok [.field field invalidPkMsg]
    | some w => .ok (validateOwned u w field)

/-- A mandatory reference field (`Alias.tag`) with a `validate_<field>`
ownership check: required on a full write, resolved and ownership-checked
when present. -/
def reqRefCheck (ownerOf : Pk → Option UserId) (u : UserId) (patch : Bool)
    (field : String) : Option Pk → List VErr
  | none => if patch then [] else [.field field requiredMsg]
  | some pk =>
    match ownerOf pk with
    | none => [.field field invalidPkMsg]
    | some w => validateOwned u w field

/-- Resolve every key of a list-valued reference field, left to right,
failing on the first key that is absent from the store. -/
def listOwners (ownerOf : Pk → Option UserId) : List Pk → Option (List UserId)
  | [] => some []
  | pk :: rest =>
    match ownerOf pk with
    | none => none
    | some w => (listOwners ownerOf rest).map (fun ws => w :: ws)

/-- Ownership check of a resolved list-valued reference field:
`_validate_owned_list` raises on the first element owned by another
user. -/
def listRefErrors (u : UserId) (field : String) (ws : List UserId) : List VErr :=
  if ws.all (fun w => w == u) then [] else [.field field forbiddenMsg]

/-- An optional list-valued reference field (`facts` on Source, `tags`
and `sources` on Fact): resolution of every element, then the
element-wise ownership check. -/
def listRefCheck (ownerOf : Pk → Option UserId) (u : UserId) (field : String) :
    Option (List Pk) → List VErr
  | none => []
  | some l =>
    match listOwners ownerOf l with
    | none => [.field field invalidPkMsg]
    | some ws => listRefErrors u field ws

/-- A mandatory list-valued reference field (`tags` on Tag, declared
without `blank=True`): required on a full write, otherwise as
`listRefCheck`. -/
def reqListRefCheck (ownerOf : Pk → Option UserId) (u : UserId) (patch : Bool)
    (field : String) : Option (List Pk) → List VErr
  | none => if patch then [] else [.field field requiredMsg]
  | some l =>
    match listOwners ownerOf l with
    | none => [.field field invalidPkMsg]
    | some ws => listRefErrors u field ws

/-- A mandatory plain (character) field: required on a full write. -/
def requiredErr (patch : Bool) (field : String) : Option String → List VErr
  | none => if patch then [] else [.field field requiredMsg]
  | some _ => []

/-! ## Request bodies

One structure per serializer, mirroring the serializer `Meta.fields`
(minus the read-only `id`).  No serializer lists the `user` field, so no
request body carries an owner.  An outer `Option` is key presence in the
request; for nullable scalar and to-one reference fields an inner
`Option` distinguishes an explicit null from a value. -/

structure SourceData where
  name : Option String
  accessed : Option Int
  author : Option String
  publisher : Option String
  published : Option (Option Int)
  facts : Option (List Pk)
deriving DecidableEq, Repr

structure PeriodData where
  start : Option (Option Int)
  «end» : Option (Option Int)
deriving DecidableEq, Repr

structure TagTypeData where
  name : Option String
deriving DecidableEq, Repr

structure TagData where
  name : Option String
  text : Option String
  type : Option (Option Pk)
  tags : Option (List Pk)
deriving DecidableEq, Repr

structure AliasData where
  name : Option String
  tag : Option Pk
deriving DecidableEq, Repr

structure FactData where
  key : Option String
  value : Option String
  context : Option (Option Pk)
  period : Option (Option Pk)
  tags : Option (List Pk)
  sources : Option (List Pk)
deriving DecidableEq, Repr

/-! ## Serializer validation

Field-level validation in `Meta.fields` order.  Serializers whose
`validate_<field>` methods can receive an explicit null (`context`,
`period` on Fact; `type` on Tag) can raise an uncaught `AttributeError`,
so their validation result is an `Except`; the others only ever collect
field errors. -/

/-- `SourceSerializer`: `name` is required; `facts` is an optional
list-valued reference validated by `validate_facts`. -/
def sourceValidate (st : Store) (u : UserId) (patch : Bool) (d : SourceData) :
    List VErr :=
  requiredErr patch "name" d.name ++ listRefCheck (factOwner st) u "facts" d.facts

/-- `PeriodSerializer.validate`, line for line: evaluate
`data[\x27start\x27] > data[\x27end\x27]` and raise `ValidationError` when the
comparison holds.  A missing key raises `KeyError`; comparing a null with
anything raises `TypeError`. -/
def periodValidateMethod (d : PeriodData) : Except VErr Unit :=
  match d.start with
  | none => .error (.keyError "start")
  | some s =>
    match d.«end» with
    | none => .error (.keyError "end")
    | some e =>
      match s, e with
      | some sv, some ev =>
        if sv > ev then .error (.nonField orderMsg) else .ok ()
      | _, _ => .error .typeError

/-- Full `PeriodSerializer` validation: the `start`/`end` fields
themselves produce no field errors (both optional and nullable, no
per-field validators), then the object-level `validate` runs.  A
`ValidationError` it raises is caught and becomes a non-field error; a
`KeyError` or `TypeError` escapes. -/
def periodValidate (d : PeriodData) : Except VErr (List VErr) :=
  match periodValidateMethod d with
  | .ok _ => .ok []
  | .error (.nonField m) => .ok [.nonField m]
  | .error e => .error e

/-- `TagTypeSerializer`: only `name`, required. -/
def tagTypeValidate (patch : Bool) (d : TagTypeData) : List VErr :=
  requiredErr patch "name" d.name

/-- `TagSerializer`: required `name`, optional `text`, nullable `type`
reference validated by `validate_type`, mandatory list-valued `tags`
validated by `validate_tags`. -/
def tagValidate (st : Store) (u : UserId) (patch : Bool) (d : TagData) :
    Except VErr (List VErr) :=
  match singleRefCheck (tagTypeOwner st) u "type" d.type with
  | .error e => .error e
  | .ok etype =>
    .ok (requiredErr patch "name" d.name ++ etype ++
      reqListRefCheck (tagOwner st) u patch "tags" d.tags)

/-- `AliasSerializer`: required `name`, mandatory `tag` reference
validated by `validate_tag`. -/
def aliasValidate (st : Store) (u : UserId) (patch : Bool) (d : AliasData) :
    List VErr :=
  requiredErr patch "name" d.name ++ reqRefCheck (tagOwner st) u patch "tag" d.tag

/-- `FactSerializer`: optional `key`, required `value`, nullable
`context` and `period` references (`validate_context`,
`validate_period`), optional list-valued `tags` and `sources`
(`validate_tags`, `validate_sources`). -/
def factValidate (st : Store) (u : UserId) (patch : Bool) (d : FactData) :
    Except VErr (List VErr) :=
  match singleRefCheck (tagOwner st) u "context" d.context with
  | .error e => .error e
  | .ok econtext =>
    match singleRefCheck (periodOwner st) u "period" d.period with
    | .error e => .error e
    | .ok eperiod =>
      .ok (requiredErr patch "value" d.value ++ econtext ++ eperiod ++
        listRefCheck (tagOwner st) u "tags" d.tags ++
        listRefCheck (sourceOwner st) u "sources" d.sources)

/-! ## Model-layer save behaviour -/

/-- Many-to-many `add`: does nothing if the relationship already
exists. -/
def m2mAdd (l : List Pk) (x : Pk) : List Pk :=
  if x ∈ l then l else l ++ [x]

/-- `Fact.save`: after the ordinary save, ensure the context (when set)
is in the tag set; adding does nothing when it is already there. -/
def factSave (f : Fact) : Fact :=
  match f.context with
  | some c => { f with tags := m2mAdd f.tags c }
  | none => f

/-! ## Write operations

`OwnedModelSerializer.save` stamps `validated_data[\x27user\x27] = request.user`
before persisting, so every persist below sets `user` to the requester.
On a create the fresh key is `st.nextId`.  Uniqueness constraints
(`unique_together` of Tag and Alias) live in the database: a violated
constraint is an uncaught `IntegrityError`, not a validation error. -/

/-- Shared driver: crash if validation crashed, reject with the error
list when non-empty, otherwise run the persist step (`none` from the
persist step is a database integrity crash). -/
def runWrite (v : Except VErr (List VErr)) (persist : Option (Store × Pk)) :
    WResult :=
  match v with
  | .error e => .crash e
  | .ok (e :: es) => .invalid (e :: es)
  | .ok [] =>
    match persist with
    | none => .crash .integrityError
    | some (st', pk) => .ok st' pk

/-- Reverse many-to-many set for `Source.facts`: after saving source
`srcId`, every fact listed gains `srcId` in its `sources`, every fact not
listed loses it. -/
def setSourceFacts (facts : List (Pk × Fact)) (srcId : Pk) (l : List Pk) :
    List (Pk × Fact) :=
  facts.map (fun p =>
    if p.1 ∈ l then (p.1, { p.2 with sources := m2mAdd p.2.sources srcId })
    else (p.1, { p.2 with sources := p.2.sources.erase srcId }))

/-- Build the Source record on create: model defaults fill the omitted
fields (`accessed` defaults to now, blank character fields to empty,
`published` to null). -/
def persistSource (u : UserId) (now : Int) (d : SourceData) : Source :=
  { name := d.name.getD "", accessed := d.accessed.getD now,
    author := d.author.getD "", publisher := d.publisher.getD "",
    published := d.published.getD none, user := u }

def sourceCreate (st : Store) (u : UserId) (now : Int) (d : SourceData) :
    WResult :=
  runWrite (.ok (sourceValidate st u false d))
    (some ({ st with
        sources := st.sources ++ [(st.nextId, persistSource u now d)],
        facts := match d.facts with
          | none => st.facts
          | some l => setSourceFacts st.facts st.nextId l,
        nextId := st.nextId + 1 }, st.nextId))

def sourceUpdate (st : Store) (u : UserId) (pk : Pk) (d : SourceData) :
    WResult :=
  match lookup (st.sources.filter (fun p => p.2.user == u)) pk with
  | none => .notFound
  | some s =>
    runWrite (.ok (sourceValidate st u true d))
      (some ({ st with
          sources := setRecord st.sources pk
            { name := d.name.getD s.name, accessed := d.accessed.getD s.accessed,
              author := d.author.getD s.author,
              publisher := d.publisher.getD s.publisher,
              published := d.published.getD s.published, user := u },
          facts := match d.facts with
            | none => st.facts
            | some l => setSourceFacts st.facts pk l }, pk))

def persistPeriod (u : UserId) (d : PeriodData) : Period :=
  { start := d.start.getD none, «end» := d.«end».getD none, user := u }

def periodCreate (st : Store) (u : UserId) (d : PeriodData) : WResult :=
  runWrite (periodValidate d)
    (some ({ st with
        periods := st.periods ++ [(st.nextId, persistPeriod u d)],
        nextId := st.nextId + 1 }, st.nextId))

def periodUpdate (st : Store) (u : UserId) (pk : Pk) (d : PeriodData) :
    WResult :=
  match lookup (st.periods.filter (fun p => p.2.user == u)) pk with
  | none => .notFound
  | some s =>
    runWrite (periodValidate d)
      (some ({ st with
          periods := setRecord st.periods pk
            { start := d.start.getD s.start, «end» := d.«end».getD s.«end»,
              user := u } }, pk))

def persistTagType (u : UserId) (d : TagTypeData) : TagType :=
  { name := d.name.getD "", user := u }

def tagTypeCreate (st : Store) (u : UserId) (d : TagTypeData) : WResult :=
  runWrite (.ok (tagTypeValidate false d))
    (some ({ st with
        tagTypes := st.tagTypes ++ [(st.nextId, persistTagType u d)],
        nextId := st.nextId + 1 }, st.nextId))

def tagTypeUpdate (st : Store) (u : UserId) (pk : Pk) (d : TagTypeData) :
    WResult :=
  match lookup (st.tagTypes.filter (fun p => p.2.user == u)) pk with
  | none => .notFound
  | some s =>
    runWrite (.ok (tagTypeValidate true d))
      (some ({ st with
          tagTypes := setRecord st.tagTypes pk
            { name := d.name.getD s.name, user := u } }, pk))

/-- `unique_together = ((\x27name\x27, \x27user\x27),)` on Tag: the database
refuses a second tag with the same name and owner. -/
def tagUniqueOk (st : Store) (t : Tag) : Bool :=
  st.tags.all (fun p => !(p.2.name == t.name && p.2.user == t.user))

def persistTag (u : UserId) (d : TagData) : Tag :=
  { name := d.name.getD "", text := d.text.getD "",
    type := d.type.getD none, tags := d.tags.getD [], user := u }

def tagCreate (st : Store) (u : UserId) (d : TagData) : WResult :=
  runWrite (tagValidate st u false d)
    (if tagUniqueOk st (persistTag u d) then
       some ({ st with
           tags := st.tags ++ [(st.nextId, persistTag u d)],
           nextId := st.nextId + 1 }, st.nextId)
     else none)

/-- The Tag record resulting from a partial update of `s` by `d`. -/
def mergeTag (s : Tag) (u : UserId) (d : TagData) : Tag :=
  { name := d.name.getD s.name, text := d.text.getD s.text,
    type := d.type.getD s.type, tags := d.tags.getD s.tags, user := u }

def tagUpdate (st : Store) (u : UserId) (pk : Pk) (d : TagData) : WResult :=
  match lookup (st.tags.filter (fun p => p.2.user == u)) pk with
  | none => .notFound
  | some s =>
    runWrite (tagValidate st u true d)
      (if (st.tags.filter (fun p => !(p.1 == pk))).all
            (fun p => !(p.2.name == (mergeTag s u d).name &&
              p.2.user == (mergeTag s u d).user)) then
         some ({ st with tags := setRecord st.tags pk (mergeTag s u d) }, pk)
       else none)

/-- `unique_together = ((\x27name\x27, \x27user\x27),)` on Alias. -/
def aliasUniqueOk (st : Store) (a : Alias) : Bool :=
  st.aliases.all (fun p => !(p.2.name == a.name && p.2.user == a.user))

def persistAlias (u : UserId) (d : AliasData) : Alias :=
  { name := d.name.getD "", tag := d.tag.getD 0, user := u }

def aliasCreate (st : Store) (u : UserId) (d : AliasData) : WResult :=
  runWrite (.ok (aliasValidate st u false d))
    (if aliasUniqueOk st (persistAlias u d) then
       some ({ st with
           aliases := st.aliases ++ [(st.nextId, persistAlias u d)],
           nextId := st.nextId + 1 }, st.nextId)
     else none)

/-- The Alias record resulting from a partial update of `s` by `d`. -/
def mergeAlias (s : Alias) (u : UserId) (d : AliasData) : Alias :=
  { name := d.name.getD s.name, tag := d.tag.getD s.tag, user := u }

def aliasUpdate (st : Store) (u : UserId) (pk : Pk) (d : AliasData) : WResult :=
  match lookup (st.aliases.filter (fun p => p.2.user == u)) pk with
  | none => .notFound
  | some s =>
    runWrite (.ok (aliasValidate st u true d))
      (if (st.aliases.filter (fun p => !(p.1 == pk))).all
            (fun p => !(p.2.name == (mergeAlias s u d).name &&
              p.2.user == (mergeAlias s u d).user)) then
         some ({ st with aliases := setRecord st.aliases pk (mergeAlias s u d) }, pk)
       else none)

/-- The Fact row as `Fact.objects.create` receives it: scalar and to-one
fields from the validated data, many-to-many relations still empty (the
framework pops `tags` and `sources` from the validated data before
creating the instance). -/
def persistFact (u : UserId) (d : FactData) : Fact :=
  { key := d.key.getD "", value := d.value.getD "",
    context := d.context.getD none, period := d.period.getD none,
    tags := [], sources := [], user := u }

/-- The many-to-many assignment the framework performs after
`Model.save`: for each list field present in the validated data,
`relation.set(value)` replaces the stored relation with exactly the
given list, removing members not listed; an absent field is left
alone. -/
def factSetM2m (f : Fact) (d : FactData) : Fact :=
  { f with tags := d.tags.getD f.tags, sources := d.sources.getD f.sources }

/-- Fact create: the many-to-many fields are popped, the instance is
created — running `Fact.save`, which adds the context to the (empty) tag
set of the fresh row — and only then are the popped relations set, so an
explicit tag list replaces the tag set after the save. -/
def factCreate (st : Store) (u : UserId) (d : FactData) : WResult :=
  runWrite (factValidate st u false d)
    (some ({ st with
        facts := st.facts ++
          [(st.nextId, factSetM2m (factSave (persistFact u d)) d)],
        nextId := st.nextId + 1 }, st.nextId))

/-- Fact update: the scalar and to-one fields are assigned,
`instance.save()` runs — `Fact.save` adds the context to the stored tag
set — and then the provided many-to-many relations are set, replacing
the tag set. -/
def factUpdate (st : Store) (u : UserId) (pk : Pk) (d : FactData) : WResult :=
  match lookup (st.facts.filter (fun p => p.2.user == u)) pk with
  | none => .notFound
  | some s =>
    runWrite (factValidate st u true d)
      (some ({ st with
          facts := setRecord st.facts pk
            (factSetM2m
              (factSave
                { key := d.key.getD s.key, value := d.value.getD s.value,
                  context := d.context.getD s.context,
                  period := d.period.getD s.period, tags := s.tags,
                  sources := s.sources, user := u }) d) }, pk))

/-! ## Read operations

`UserModelViewSet.get_queryset` filters the base queryset with
`user=self.request.user.id`; list returns the filtered queryset, retrieve
looks the primary key up inside it. -/

def listSources (st : Store) (u : UserId) : List (Pk × Source) :=
  st.sources.filter (fun p => p.2.user == u)

def listPeriods (st : Store) (u : UserId) : List (Pk × Period) :=
  st.periods.filter (fun p => p.2.user == u)

def listTagTypes (st : Store) (u : UserId) : List (Pk × TagType) :=
  st.tagTypes.filter (fun p => p.2.user == u)

def listTags (st : Store) (u : UserId) : List (Pk × Tag) :=
  st.tags.filter (fun p => p.2.user == u)

def listAliases (st : Store) (u : UserId) : List (Pk × Alias) :=
  st.aliases.filter (fun p => p.2.user == u)

def listFacts (st : Store) (u : UserId) : List (Pk × Fact) :=
  st.facts.filter (fun p => p.2.user == u)

def retrieveSource (st : Store) (u : UserId) (pk : Pk) : Option Source :=
  lookup (listSources st u) pk

def retrievePeriod (st : Store) (u : UserId) (pk : Pk) : Option Period :=
  lookup (listPeriods st u) pk

def retrieveTagType (st : Store) (u : UserId) (pk : Pk) : Option TagType :=
  lookup (listTagTypes st u) pk

def retrieveTag (st : Store) (u : UserId) (pk : Pk) : Option Tag :=
  lookup (listTags st u) pk

def retrieveAlias (st : Store) (u : UserId) (pk : Pk) : Option Alias :=
  lookup (listAliases st u) pk

def retrieveFact (st : Store) (u : UserId) (pk : Pk) : Option Fact :=
  lookup (listFacts st u) pk

/-! ## Deletion

Django `on_delete` semantics for the declared foreign keys:
`Tag.type` is `SET_NULL`, `Fact.period` is `SET_NULL`, `Fact.context` is
`CASCADE`, `Alias.tag` is `CASCADE`, and every `user` foreign key is
`CASCADE`.  Deleting a row also removes it from every many-to-many
relation it participates in. -/

/-- Delete a TagType: tags referencing it keep existing with a null
type. -/
def deleteTagType (st : Store) (id : Pk) : Store :=
  { st with
    tagTypes := st.tagTypes.filter (fun p => !(p.1 == id)),
    tags := mapVals
      (fun t => if t.type == some id then { t with type := none } else t)
      st.tags }

/-- Delete a Period: facts referencing it keep existing with a null
period. -/
def deletePeriod (st : Store) (id : Pk) : Store :=
  { st with
    periods := st.periods.filter (fun p => !(p.1 == id)),
    facts := mapVals
      (fun f => if f.period == some id then { f with period := none } else f)
      st.facts }

/-- Delete a Tag: aliases of it and facts contextualized by it cascade;
it disappears from every tag set. -/
def deleteTag (st : Store) (id : Pk) : Store :=
  { st with
    tags := mapVals (fun t => { t with tags := t.tags.filter (fun x => !(x == id)) })
      (st.tags.filter (fun p => !(p.1 == id))),
    aliases := st.aliases.filter (fun p => !(p.2.tag == id)),
    facts := mapVals (fun f => { f with tags := f.tags.filter (fun x => !(x == id)) })
      (st.facts.filter (fun p => !(p.2.context == some id))) }

/-- Delete a User: every record the user owns cascades away; the
cascades and nullifications of those deletions propagate to surviving
records of other users. -/
def deleteUser (st : Store) (u : UserId) : Store :=
  let deadTagIds := (st.tags.filter (fun p => p.2.user == u)).map (fun p => p.1)
  let deadTagTypeIds :=
    (st.tagTypes.filter (fun p => p.2.user == u)).map (fun p => p.1)
  let deadPeriodIds :=
    (st.periods.filter (fun p => p.2.user == u)).map (fun p => p.1)
  let deadSourceIds :=
    (st.sources.filter (fun p => p.2.user == u)).map (fun p => p.1)
  { st with
    sources := st.sources.filter (fun p => !(p.2.user == u)),
    periods := st.periods.filter (fun p => !(p.2.user == u)),
    tagTypes := st.tagTypes.filter (fun p => !(p.2.user == u)),
    tags := mapVals
      (fun t =>
        { t with
          type := match t.type with
            | some ty => if deadTagTypeIds.contains ty then none else some ty
            | none => none,
          tags := t.tags.filter (fun x => !(deadTagIds.contains x)) })
      (st.tags.filter (fun p => !(p.2.user == u))),
    aliases := st.aliases.filter
      (fun p => !(p.2.user == u) && !(deadTagIds.contains p.2.tag)),
    facts := mapVals
      (fun f =>
        { f with
          period := match f.period with
            | some pe => if deadPeriodIds.contains pe then none else some pe
            | none => none,
          tags := f.tags.filter (fun x => !(deadTagIds.contains x)),
          sources := f.sources.filter (fun x => !(deadSourceIds.contains x)) })
      (st.facts.filter
        (fun p => !(p.2.user == u) &&
          !(match p.2.context with
            | some c => deadTagIds.contains c
            | none => false))) }

/-! ## String containment (for the wording of the period-ordering
error) -/

/-- ASCII lower-casing of a character. -/
def asciiLower (c : Char) : Char :=
  if c.toNat ≥ 65 ∧ c.toNat ≤ 90 then Char.ofNat (c.toNat + 32) else c

/-- Whether `pat` occurs as a contiguous run inside `l`. -/
def containsRun (pat l : List Char) : Bool :=
  (List.range (l.length + 1)).any (fun i => pat.isPrefixOf (l.drop i))

/-- Whether the lower-cased `s` contains the (already lower-case)
token `tok`. -/
def mentions (s tok : String) : Bool :=
  containsRun tok.data (s.data.map asciiLower)

/-! ## General lemmas about the store primitives -/

theorem lookup_mem {α : Type} {l : List (Pk × α)} {pk : Pk} {a : α}
    (h : lookup l pk = some a) : (pk, a) ∈ l := by
  unfold lookup at h
  cases hf : l.find? (fun p => p.1 == pk) with
  | none => rw [hf] at h; simp at h
  | some p =>
    rw [hf] at h
    have hp := List.find?_some hf
    have hm := List.mem_of_find?_eq_some hf
    simp at h hp
    have : (pk, a) = p := by
      cases p with
      | mk p1 p2 => simp at hp h; rw [hp, h]
    rw [this]
    exact hm

theorem lookup_filter_prop {α : Type} {l : List (Pk × α)} {q : Pk × α → Bool}
    {pk : Pk} {a : α} (h : lookup (l.filter q) pk = some a) :
    (pk, a) ∈ l ∧ q (pk, a) = true :=
  List.mem_filter.mp (lookup_mem h)

theorem mem_setRecord {α : Type} {l : List (Pk × α)} {pk : Pk} {a0 : α}
    (a : α) (h : (pk, a0) ∈ l) : (pk, a) ∈ setRecord l pk a := by
  unfold setRecord
  refine List.mem_map.mpr ⟨(pk, a0), h, ?_⟩
  simp

theorem lookup_mapVals {α : Type} (g : α → α) (l : List (Pk × α)) (pk : Pk) :
    lookup (mapVals g l) pk = (lookup l pk).map g := by
  induction l with
  | nil => rfl
  | cons p t ih =>
    cases p with
    | mk p1 p2 =>
      by_cases hp : p1 = pk
      · simp [lookup, mapVals, List.find?, hp]
      · simp only [lookup, mapVals, List.map, List.find?] at *
        have : (p1 == pk) = false := by simp [hp]
        simp only [this, cond_false]
        exact ih

theorem mem_mapVals_filter {α : Type} {g : α → α} {q : Pk × α → Bool}
    {l : List (Pk × α)} {p : Pk × α} (h : p ∈ mapVals g (l.filter q)) :
    ∃ p0, p0 ∈ l ∧ q p0 = true ∧ p = (p0.1, g p0.2) := by
  unfold mapVals at h
  rcases List.mem_map.mp h with ⟨p0, hp0, hEq⟩
  rcases List.mem_filter.mp hp0 with ⟨hmem, hq⟩
  exact ⟨p0, hmem, hq, hEq.symm⟩

/-! ## General lemmas about the write driver -/

theorem runWrite_ok {v : Except VErr (List VErr)} {p : Option (Store × Pk)}
    {st' : Store} {k : Pk} (h : runWrite v p = .ok st' k) :
    v = .ok [] ∧ p = some (st', k) := by
  cases v with
  | error e => simp [runWrite] at h
  | ok errs =>
    cases errs with
    | cons e es => simp [runWrite] at h
    | nil =>
      cases p with
      | none => simp [runWrite] at h
      | some q =>
        cases q with
        | mk st2 k2 =>
          simp [runWrite] at h
          exact ⟨rfl, by rw [h.1, h.2]⟩

theorem runWrite_invalid {errs : List VErr} {p : Option (Store × Pk)}
    (h : errs ≠ []) : runWrite (.ok errs) p = .invalid errs := by
  cases errs with
  | nil => exact absurd rfl h
  | cons e es => rfl

theorem runWrite_not_ok {v : Except VErr (List VErr)} {p : Option (Store × Pk)}
    (hv : ∀ errs, v = .ok errs → errs ≠ []) :
    ∀ st' k, runWrite v p ≠ .ok st' k := by
  intro st' k h
  rcases runWrite_ok h with ⟨h1, _⟩
  exact hv [] h1 rfl

theorem runWrite_none_not_ok {v : Except VErr (List VErr)} :
    ∀ st' k, runWrite v none ≠ .ok st' k := by
  intro st' k h
  rcases runWrite_ok h with ⟨_, h2⟩
  simp at h2

/-! ## Lemmas about the ownership checks -/

theorem validateOwned_ne {u w : UserId} (field : String) (hw : w ≠ u) :
    validateOwned u w field = [.field field forbiddenMsg] := by
  simp [validateOwned, hw]

theorem singleRefCheck_forbidden {f : Pk → Option UserId} {u : UserId}
    (field : String) {pk : Pk} {w : UserId} (how : f pk = some w) (hw : w ≠ u) :
    singleRefCheck f u field (some (some pk)) = .ok [.field field forbiddenMsg] := by
  simp [singleRefCheck, how, validateOwned_ne field hw]

theorem listOwners_mem {f : Pk → Option UserId} {l : List Pk} {ws : List UserId}
    {pk : Pk} {w : UserId} (h : listOwners f l = some ws) (hpk : pk ∈ l)
    (how : f pk = some w) : w ∈ ws := by
  induction l generalizing ws with
  | nil => cases hpk
  | cons x t ih =>
    unfold listOwners at h
    cases hx : f x with
    | none => rw [hx] at h; simp at h
    | some wx =>
      rw [hx] at h
      cases ht : listOwners f t with
      | none => rw [ht] at h; simp at h
      | some wt =>
        rw [ht] at h
        simp at h
        rcases List.mem_cons.mp hpk with hh | hh
        · subst hh
          rw [hx] at how
          simp at how
          rw [← h, how]
          exact List.mem_cons_self _ _
        · rw [← h]
          exact List.mem_cons_of_mem _ (ih ht hh)

theorem listRefErrors_ne {u : UserId} (field : String) {ws : List UserId}
    {w : UserId} (hm : w ∈ ws) (hw : w ≠ u) :
    listRefErrors u field ws = [.field field forbiddenMsg] := by
  unfold listRefErrors
  have : ws.all (fun x => x == u) = false := by
    rw [Bool.eq_false_iff]
    intro hall
    exact hw (by simpa using (List.all_eq_true.mp hall w hm))
  simp [this]

theorem listRefCheck_bad {f : Pk → Option UserId} {u : UserId} (field : String)
    {l : List Pk} {pk : Pk} {w : UserId} (hpk : pk ∈ l) (how : f pk = some w)
    (hw : w ≠ u) :
    ∃ m, listRefCheck f u field (some l) = [.field field m] := by
  have hred : listRefCheck f u field (some l) =
      (match listOwners f l with
        | none => [VErr.field field invalidPkMsg]
        | some ws => listRefErrors u field ws) := rfl
  rw [hred]
  cases ho : listOwners f l with
  | none => simp only [ho]; exact ⟨invalidPkMsg, rfl⟩
  | some ws =>
    simp only [ho]
    exact ⟨forbiddenMsg, listRefErrors_ne field (listOwners_mem ho hpk how) hw⟩

theorem reqListRefCheck_eq_listRefCheck (f : Pk → Option UserId) (u : UserId)
    (patch : Bool) (field : String) (l : List Pk) :
    reqListRefCheck f u patch field (some l) = listRefCheck f u field (some l) := rfl

theorem reqRefCheck_forbidden {f : Pk → Option UserId} {u : UserId}
    (patch : Bool) (field : String) {pk : Pk} {w : UserId} (how : f pk = some w)
    (hw : w ≠ u) :
    reqRefCheck f u patch field (some pk) = [.field field forbiddenMsg] := by
  simp [reqRefCheck, how, validateOwned_ne field hw]

/-! ## Cross-user references always surface as field-scoped errors -/

theorem factValidate_context_mem {st : Store} {u : UserId} {b : Bool}
    {d : FactData} {pk : Pk} {w : UserId} {errs : List VErr}
    (hc : d.context = some (some pk)) (how : tagOwner st pk = some w)
    (hw : w ≠ u) (h : factValidate st u b d = .ok errs) :
    VErr.field "context" forbiddenMsg ∈ errs := by
  cases hp : singleRefCheck (periodOwner st) u "period" d.period with
  | error e =>
    simp only [factValidate, hc, singleRefCheck_forbidden "context" how hw, hp] at h
    exact absurd h (by simp)
  | ok ep =>
    simp only [factValidate, hc, singleRefCheck_forbidden "context" how hw, hp,
      Except.ok.injEq] at h
    rw [← h]
    simp [List.mem_append]

theorem factValidate_period_mem {st : Store} {u : UserId} {b : Bool}
    {d : FactData} {pk : Pk} {w : UserId} {errs : List VErr}
    (hc : d.period = some (some pk)) (how : periodOwner st pk = some w)
    (hw : w ≠ u) (h : factValidate st u b d = .ok errs) :
    VErr.field "period" forbiddenMsg ∈ errs := by
  cases hx : singleRefCheck (tagOwner st) u "context" d.context with
  | error e =>
    simp only [factValidate, hx] at h
    exact absurd h (by simp)
  | ok ec =>
    simp only [factValidate, hx, hc, singleRefCheck_forbidden "period" how hw,
      Except.ok.injEq] at h
    rw [← h]
    simp [List.mem_append]

theorem factValidate_tags_mem {st : Store} {u : UserId} {b : Bool}
    {d : FactData} {l : List Pk} {pk : Pk} {w : UserId} {errs : List VErr}
    (hl : d.tags = some l) (hpk : pk ∈ l) (how : tagOwner st pk = some w)
    (hw : w ≠ u) (h : factValidate st u b d = .ok errs) :
    ∃ m, VErr.field "tags" m ∈ errs := by
  rcases listRefCheck_bad "tags" hpk how hw with ⟨m, hm⟩
  cases hx : singleRefCheck (tagOwner st) u "context" d.context with
  | error e =>
    simp only [factValidate, hx] at h
    exact absurd h (by simp)
  | ok ec =>
    cases hp : singleRefCheck (periodOwner st) u "period" d.period with
    | error e =>
      simp only [factValidate, hx, hp] at h
      exact absurd h (by simp)
    | ok ep =>
      simp only [factValidate, hx, hp, hl, hm, Except.ok.injEq] at h
      refine ⟨m, ?_⟩
      rw [← h]
      simp [List.mem_append]

theorem factValidate_sources_mem {st : Store} {u : UserId} {b : Bool}
    {d : FactData} {l : List Pk} {pk : Pk} {w : UserId} {errs : List VErr}
    (hl : d.sources = some l) (hpk : pk ∈ l) (how : sourceOwner st pk = some w)
    (hw : w ≠ u) (h : factValidate st u b d = .ok errs) :
    ∃ m, VErr.field "sources" m ∈ errs := by
  rcases listRefCheck_bad "sources" hpk how hw with ⟨m, hm⟩
  cases hx : singleRefCheck (tagOwner st) u "context" d.context with
  | error e =>
    simp only [factValidate, hx] at h
    exact absurd h (by simp)
  | ok ec =>
    cases hp : singleRefCheck (periodOwner st) u "period" d.period with
    | error e =>
      simp only [factValidate, hx, hp] at h
      exact absurd h (by simp)
    | ok ep =>
      simp only [factValidate, hx, hp, hl, hm, Except.ok.injEq] at h
      refine ⟨m, ?_⟩
      rw [← h]
      simp [List.mem_append]

theorem tagValidate_type_mem {st : Store} {u : UserId} {b : Bool}
    {d : TagData} {pk : Pk} {w : UserId} {errs : List VErr}
    (hc : d.type = some (some pk)) (how : tagTypeOwner st pk = some w)
    (hw : w ≠ u) (h : tagValidate st u b d = .ok errs) :
    VErr.field "type" forbiddenMsg ∈ errs := by
  simp only [tagValidate, hc, singleRefCheck_forbidden "type" how hw,
    Except.ok.injEq] at h
  rw [← h]
  simp [List.mem_append]

theorem tagValidate_tags_mem {st : Store} {u : UserId} {b : Bool}
    {d : TagData} {l : List Pk} {pk : Pk} {w : UserId} {errs : List VErr}
    (hl : d.tags = some l) (hpk : pk ∈ l) (how : tagOwner st pk = some w)
    (hw : w ≠ u) (h : tagValidate st u b d = .ok errs) :
    ∃ m, VErr.field "tags" m ∈ errs := by
  rcases listRefCheck_bad "tags" hpk how hw with ⟨m, hm⟩
  cases hx : singleRefCheck (tagTypeOwner st) u "type" d.type with
  | error e =>
    simp only [tagValidate, hx] at h
    exact absurd h (by simp)
  | ok et =>
    simp only [tagValidate, hx, hl, reqListRefCheck_eq_listRefCheck, hm,
      Except.ok.injEq] at h
    refine ⟨m, ?_⟩
    rw [← h]
    simp [List.mem_append]

theorem aliasValidate_tag_mem {st : Store} {u : UserId} {b : Bool}
    {d : AliasData} {pk : Pk} {w : UserId}
    (hc : d.tag = some pk) (how : tagOwner st pk = some w) (hw : w ≠ u) :
    VErr.field "tag" forbiddenMsg ∈ aliasValidate st u b d := by
  unfold aliasValidate
  rw [hc, reqRefCheck_forbidden b "tag" how hw]
  simp [List.mem_append]

theorem sourceValidate_facts_mem {st : Store} {u : UserId} {b : Bool}
    {d : SourceData} {l : List Pk} {pk : Pk} {w : UserId}
    (hl : d.facts = some l) (hpk : pk ∈ l) (how : factOwner st pk = some w)
    (hw : w ≠ u) :
    ∃ m, VErr.field "facts" m ∈ sourceValidate st u b d := by
  rcases listRefCheck_bad "facts" hpk how hw with ⟨m, hm⟩
  refine ⟨m, ?_⟩
  unfold sourceValidate
  rw [hl, hm]
  simp [List.mem_append]

/-! ## A non-empty validation result blocks both create and update -/

theorem sourceWrite_not_ok {st : Store} {u : UserId} {d : SourceData}
    (hv : ∀ b, sourceValidate st u b d ≠ []) :
    (∀ now st' k, sourceCreate st u now d ≠ .ok st' k) ∧
    (∀ p0 st' k, sourceUpdate st u p0 d ≠ .ok st' k) := by
  constructor
  · intro now st' k h
    unfold sourceCreate at h
    rcases runWrite_ok h with ⟨h1, _⟩
    exact hv false (by simpa using h1)
  · intro p0 st' k h
    unfold sourceUpdate at h
    cases hf : lookup (st.sources.filter fun p => p.2.user == u) p0 with
    | none => simp only [hf] at h; exact WResult.noConfusion h
    | some s =>
      simp only [hf] at h
      rcases runWrite_ok h with ⟨h1, _⟩
      exact hv true (by simpa using h1)

theorem tagWrite_not_ok {st : Store} {u : UserId} {d : TagData}
    (hv : ∀ b errs, tagValidate st u b d = .ok errs → errs ≠ []) :
    (∀ st' k, tagCreate st u d ≠ .ok st' k) ∧
    (∀ p0 st' k, tagUpdate st u p0 d ≠ .ok st' k) := by
  constructor
  · intro st' k h
    unfold tagCreate at h
    rcases runWrite_ok h with ⟨h1, _⟩
    exact hv false [] h1 rfl
  · intro p0 st' k h
    unfold tagUpdate at h
    cases hf : lookup (st.tags.filter fun p => p.2.user == u) p0 with
    | none => simp only [hf] at h; exact WResult.noConfusion h
    | some s =>
      simp only [hf] at h
      rcases runWrite_ok h with ⟨h1, _⟩
      exact hv true [] h1 rfl

theorem aliasWrite_not_ok {st : Store} {u : UserId} {d : AliasData}
    (hv : ∀ b, aliasValidate st u b d ≠ []) :
    (∀ st' k, aliasCreate st u d ≠ .ok st' k) ∧
    (∀ p0 st' k, aliasUpdate st u p0 d ≠ .ok st' k) := by
  constructor
  · intro st' k h
    unfold aliasCreate at h
    rcases runWrite_ok h with ⟨h1, _⟩
    exact hv false (by simpa using h1)
  · intro p0 st' k h
    unfold aliasUpdate at h
    cases hf : lookup (st.aliases.filter fun p => p.2.user == u) p0 with
    | none => simp only [hf] at h; exact WResult.noConfusion h
    | some s =>
      simp only [hf] at h
      rcases runWrite_ok h with ⟨h1, _⟩
      exact hv true (by simpa using h1)

theorem factWrite_not_ok {st : Store} {u : UserId} {d : FactData}
    (hv : ∀ b errs, factValidate st u b d = .ok errs → errs ≠ []) :
    (∀ st' k, factCreate st u d ≠ .ok st' k) ∧
    (∀ p0 st' k, factUpdate st u p0 d ≠ .ok st' k) := by
  constructor
  · intro st' k h
    unfold factCreate at h
    rcases runWrite_ok h with ⟨h1, _⟩
    exact hv false [] h1 rfl
  · intro p0 st' k h
    unfold factUpdate at h
    cases hf : lookup (st.facts.filter fun p => p.2.user == u) p0 with
    | none => simp only [hf] at h; exact WResult.noConfusion h
    | some s =>
      simp only [hf] at h
      rcases runWrite_ok h with ⟨h1, _⟩
      exact hv true [] h1 rfl


/-! ## Claim C1 -/

/-- Store for the C1 counterexample: tag 10 belongs to user 2. -/
def c1Store : Store :=
  { emptyStore with tags := [(10, ⟨"t", "", none, [], 2⟩)], nextId := 20 }

/-- Request body for the C1 counterexample: a Fact write whose `context`
references another user\x27s tag 10 but whose `period` is an explicit
null. -/
def c1BadData : FactData := ⟨none, some "v", some (some 10), some none, none, none⟩

/-- **C1** is false as stated: a Fact write whose `context` references a
tag owned by another user is not always rejected with an error
attributed to `context` — when the same request carries an explicit null
in `period`, `validate_period` receives `None`, `None.user` raises an
uncaught `AttributeError`, and the request crashes with no field-scoped
error at all. -/
theorem c1_counterexample :
    factCreate c1Store 1 c1BadData = .crash VErr.attributeError ∧
    c1BadData.context = some (some 10) ∧
    tagOwner c1Store 10 = some 2 ∧ (2 : UserId) ≠ (1 : UserId) := by
  refine ⟨rfl, rfl, rfl, by decide⟩

/-- **C1** (amended).  For every write of any entity, if any referenced
related object (tag, tags, type, period, context, sources, facts) is
owned by a user other than the requesting user, the write never
persists (create and update alike); and whenever field validation runs
to completion — no other nullable reference field holds an explicit
null, which instead crashes the request, see `c1_counterexample` — the
validation result carries an error attributed to that specific field:
the ownership error for single-valued references, and, element-wise for
list-valued references, an error on that field whenever any one element
is owned by another user. -/
theorem c1_cross_user_reference_rejected :
    (∀ st u (d : FactData) pk w, d.context = some (some pk) →
      tagOwner st pk = some w → w ≠ u →
      (∀ b errs, factValidate st u b d = .ok errs →
        VErr.field "context" forbiddenMsg ∈ errs) ∧
      (∀ st2 k, factCreate st u d ≠ .ok st2 k) ∧
      (∀ p0 st2 k, factUpdate st u p0 d ≠ .ok st2 k)) ∧
    (∀ st u (d : FactData) pk w, d.period = some (some pk) →
      periodOwner st pk = some w → w ≠ u →
      (∀ b errs, factValidate st u b d = .ok errs →
        VErr.field "period" forbiddenMsg ∈ errs) ∧
      (∀ st2 k, factCreate st u d ≠ .ok st2 k) ∧
      (∀ p0 st2 k, factUpdate st u p0 d ≠ .ok st2 k)) ∧
    (∀ st u (d : FactData) l pk w, d.tags = some l → pk ∈ l →
      tagOwner st pk = some w → w ≠ u →
      (∀ b errs, factValidate st u b d = .ok errs →
        ∃ m, VErr.field "tags" m ∈ errs) ∧
      (∀ st2 k, factCreate st u d ≠ .ok st2 k) ∧
      (∀ p0 st2 k, factUpdate st u p0 d ≠ .ok st2 k)) ∧
    (∀ st u (d : FactData) l pk w, d.sources = some l → pk ∈ l →
      sourceOwner st pk = some w → w ≠ u →
      (∀ b errs, factValidate st u b d = .ok errs →
        ∃ m, VErr.field "sources" m ∈ errs) ∧
      (∀ st2 k, factCreate st u d ≠ .ok st2 k) ∧
      (∀ p0 st2 k, factUpdate st u p0 d ≠ .ok st2 k)) ∧
    (∀ st u (d : TagData) pk w, d.type = some (some pk) →
      tagTypeOwner st pk = some w → w ≠ u →
      (∀ b errs, tagValidate st u b d = .ok errs →
        VErr.field "type" forbiddenMsg ∈ errs) ∧
      (∀ st2 k, tagCreate st u d ≠ .ok st2 k) ∧
      (∀ p0 st2 k, tagUpdate st u p0 d ≠ .ok st2 k)) ∧
    (∀ st u (d : TagData) l pk w, d.tags = some l → pk ∈ l →
      tagOwner st pk = some w → w ≠ u →
      (∀ b errs, tagValidate st u b d = .ok errs →
        ∃ m, VErr.field "tags" m ∈ errs) ∧
      (∀ st2 k, tagCreate st u d ≠ .ok st2 k) ∧
      (∀ p0 st2 k, tagUpdate st u p0 d ≠ .ok st2 k)) ∧
    (∀ st u (d : AliasData) pk w, d.tag = some pk →
      tagOwner st pk = some w → w ≠ u →
      (∀ b, VErr.field "tag" forbiddenMsg ∈ aliasValidate st u b d) ∧
      (∀ st2 k, aliasCreate st u d ≠ .ok st2 k) ∧
      (∀ p0 st2 k, aliasUpdate st u p0 d ≠ .ok st2 k)) ∧
    (∀ st u (d : SourceData) l pk w, d.facts = some l → pk ∈ l →
      factOwner st pk = some w → w ≠ u →
      (∀ b, ∃ m, VErr.field "facts" m ∈ sourceValidate st u b d) ∧
      (∀ now st2 k, sourceCreate st u now d ≠ .ok st2 k) ∧
      (∀ p0 st2 k, sourceUpdate st u p0 d ≠ .ok st2 k)) := by
  refine ⟨?_, ?_, ?_, ?_, ?_, ?_, ?_, ?_⟩
  · intro st u d pk w hc how hw
    have hmem : ∀ (b : Bool) (errs : List VErr), factValidate st u b d = .ok errs →
        VErr.field "context" forbiddenMsg ∈ errs :=
      fun b errs h => factValidate_context_mem hc how hw h
    have hno := factWrite_not_ok (fun b errs h => List.ne_nil_of_mem (hmem b errs h))
    exact ⟨hmem, hno.1, hno.2⟩
  · intro st u d pk w hc how hw
    have hmem : ∀ (b : Bool) (errs : List VErr), factValidate st u b d = .ok errs →
        VErr.field "period" forbiddenMsg ∈ errs :=
      fun b errs h => factValidate_period_mem hc how hw h
    have hno := factWrite_not_ok (fun b errs h => List.ne_nil_of_mem (hmem b errs h))
    exact ⟨hmem, hno.1, hno.2⟩
  · intro st u d l pk w hl hpk how hw
    have hmem : ∀ (b : Bool) (errs : List VErr), factValidate st u b d = .ok errs →
        ∃ m, VErr.field "tags" m ∈ errs :=
      fun b errs h => factValidate_tags_mem hl hpk how hw h
    have hno := factWrite_not_ok (fun b errs h => by
      rcases hmem b errs h with ⟨m, hm⟩
      exact List.ne_nil_of_mem hm)
    exact ⟨hmem, hno.1, hno.2⟩
  · intro st u d l pk w hl hpk how hw
    have hmem : ∀ (b : Bool) (errs : List VErr), factValidate st u b d = .ok errs →
        ∃ m, VErr.field "sources" m ∈ errs :=
      fun b errs h => factValidate_sources_mem hl hpk how hw h
    have hno := factWrite_not_ok (fun b errs h => by
      rcases hmem b errs h with ⟨m, hm⟩
      exact List.ne_nil_of_mem hm)
    exact ⟨hmem, hno.1, hno.2⟩
  · intro st u d pk w hc how hw
    have hmem : ∀ (b : Bool) (errs : List VErr), tagValidate st u b d = .ok errs →
        VErr.field "type" forbiddenMsg ∈ errs :=
      fun b errs h => tagValidate_type_mem hc how hw h
    have hno := tagWrite_not_ok (fun b errs h => List.ne_nil_of_mem (hmem b errs h))
    exact ⟨hmem, hno.1, hno.2⟩
  · intro st u d l pk w hl hpk how hw
    have hmem : ∀ (b : Bool) (errs : List VErr), tagValidate st u b d = .ok errs →
        ∃ m, VErr.field "tags" m ∈ errs :=
      fun b errs h => tagValidate_tags_mem hl hpk how hw h
    have hno := tagWrite_not_ok (fun b errs h => by
      rcases hmem b errs h with ⟨m, hm⟩
      exact List.ne_nil_of_mem hm)
    exact ⟨hmem, hno.1, hno.2⟩
  · intro st u d pk w hc how hw
    have hmem : ∀ (b : Bool), VErr.field "tag" forbiddenMsg ∈ aliasValidate st u b d :=
      fun b => aliasValidate_tag_mem hc how hw
    have hno := aliasWrite_not_ok (fun b => List.ne_nil_of_mem (hmem b))
    exact ⟨hmem, hno.1, hno.2⟩
  · intro st u d l pk w hl hpk how hw
    have hmem : ∀ (b : Bool), ∃ m, VErr.field "facts" m ∈ sourceValidate st u b d :=
      fun b => sourceValidate_facts_mem hl hpk how hw
    have hno := sourceWrite_not_ok (fun b => by
      rcases hmem b with ⟨m, hm⟩
      exact List.ne_nil_of_mem hm)
    exact ⟨hmem, hno.1, hno.2⟩

/-- Store for the C1 witness: user 2 owns tag 10, tag type 11, period 12,
source 13 and fact 14; user 1 is the requester. -/
def c1WStore : Store :=
  { emptyStore with
    sources := [(13, ⟨"s", 0, "", "", none, 2⟩)],
    periods := [(12, ⟨none, none, 2⟩)],
    tagTypes := [(11, ⟨"tt", 2⟩)],
    tags := [(10, ⟨"t", "", none, [], 2⟩)],
    facts := [(14, ⟨"", "v", none, none, [], [], 2⟩)],
    nextId := 20 }

theorem c1_witness :
    VErr.field "context" forbiddenMsg ∈ [VErr.field "context" forbiddenMsg] ∧
    VErr.field "period" forbiddenMsg ∈ [VErr.field "period" forbiddenMsg] ∧
    (∃ m, VErr.field "tags" m ∈ [VErr.field "tags" forbiddenMsg]) ∧
    (∃ m, VErr.field "sources" m ∈ [VErr.field "sources" forbiddenMsg]) ∧
    VErr.field "type" forbiddenMsg ∈ [VErr.field "type" forbiddenMsg] ∧
    tagCreate c1WStore 1 ⟨some "n", none, none, some [10]⟩ ≠ WResult.ok emptyStore 0 ∧
    VErr.field "tag" forbiddenMsg ∈ aliasValidate c1WStore 1 false ⟨some "n", some 10⟩ ∧
    (∃ m, VErr.field "facts" m ∈
      sourceValidate c1WStore 1 false ⟨some "n", none, none, none, none, some [14]⟩) ∧
    factCreate c1WStore 1 ⟨none, some "v", some (some 10), none, none, none⟩ ≠
      WResult.ok emptyStore 0 := by
  refine ⟨?_, ?_, ?_, ?_, ?_, ?_, ?_, ?_, ?_⟩
  · exact (c1_cross_user_reference_rejected.1 c1WStore 1
      ⟨none, some "v", some (some 10), none, none, none⟩ 10 2 rfl rfl
      (by decide)).1 false _ rfl
  · exact (c1_cross_user_reference_rejected.2.1 c1WStore 1
      ⟨none, some "v", none, some (some 12), none, none⟩ 12 2 rfl rfl
      (by decide)).1 false _ rfl
  · exact (c1_cross_user_reference_rejected.2.2.1 c1WStore 1
      ⟨none, some "v", none, none, some [10], none⟩ [10] 10 2 rfl (by decide)
      rfl (by decide)).1 false _ rfl
  · exact (c1_cross_user_reference_rejected.2.2.2.1 c1WStore 1
      ⟨none, some "v", none, none, none, some [13]⟩ [13] 13 2 rfl (by decide)
      rfl (by decide)).1 false _ rfl
  · exact (c1_cross_user_reference_rejected.2.2.2.2.1 c1WStore 1
      ⟨some "n", none, some (some 11), some []⟩ 11 2 rfl rfl
      (by decide)).1 false _ rfl
  · exact (c1_cross_user_reference_rejected.2.2.2.2.2.1 c1WStore 1
      ⟨some "n", none, none, some [10]⟩ [10] 10 2 rfl (by decide) rfl
      (by decide)).2.1 emptyStore 0
  · exact (c1_cross_user_reference_rejected.2.2.2.2.2.2.1 c1WStore 1
      ⟨some "n", some 10⟩ 10 2 rfl rfl (by decide)).1 false
  · exact (c1_cross_user_reference_rejected.2.2.2.2.2.2.2 c1WStore 1
      ⟨some "n", none, none, none, none, some [14]⟩ [14] 14 2 rfl (by decide)
      rfl (by decide)).1 false
  · exact (c1_cross_user_reference_rejected.1 c1WStore 1
      ⟨none, some "v", some (some 10), none, none, none⟩ 10 2 rfl rfl
      (by decide)).2.1 emptyStore 0

/-! ## Claim C2 -/

/-- **C2**.  Every read operation is scoped to the requesting user: for
every state of the store and every authenticated user, each record in
any list result is owned by that user, and any record returned by a
retrieve is owned by that user — records of other users are never
observable, whatever the store holds. -/
theorem c2_reads_are_owner_scoped :
    ∀ st u,
      (∀ p ∈ listSources st u, p.2.user = u) ∧
      (∀ pk r, retrieveSource st u pk = some r → r.user = u) ∧
      (∀ p ∈ listPeriods st u, p.2.user = u) ∧
      (∀ pk r, retrievePeriod st u pk = some r → r.user = u) ∧
      (∀ p ∈ listTagTypes st u, p.2.user = u) ∧
      (∀ pk r, retrieveTagType st u pk = some r → r.user = u) ∧
      (∀ p ∈ listTags st u, p.2.user = u) ∧
      (∀ pk r, retrieveTag st u pk = some r → r.user = u) ∧
      (∀ p ∈ listAliases st u, p.2.user = u) ∧
      (∀ pk r, retrieveAlias st u pk = some r → r.user = u) ∧
      (∀ p ∈ listFacts st u, p.2.user = u) ∧
      (∀ pk r, retrieveFact st u pk = some r → r.user = u) := by
  intro st u
  refine ⟨?_, ?_, ?_, ?_, ?_, ?_, ?_, ?_, ?_, ?_, ?_, ?_⟩ <;>
    first
    | (intro p hp
       have := (List.mem_filter.mp hp).2
       simpa using this)
    | (intro pk r h
       have := (lookup_filter_prop h).2
       simpa using this)

/-- Store for the C2 witness: users 1 and 2 each own one record of every
kind. -/
def c2Store : Store :=
  { sources := [(1, ⟨"s1", 0, "", "", none, 1⟩), (2, ⟨"s2", 0, "", "", none, 2⟩)],
    periods := [(1, ⟨none, none, 1⟩), (2, ⟨none, none, 2⟩)],
    tagTypes := [(1, ⟨"tt1", 1⟩), (2, ⟨"tt2", 2⟩)],
    tags := [(1, ⟨"t1", "", none, [], 1⟩), (2, ⟨"t2", "", none, [], 2⟩)],
    aliases := [(1, ⟨"a1", 1, 1⟩), (2, ⟨"a2", 2, 2⟩)],
    facts := [(1, ⟨"", "v1", none, none, [], [], 1⟩), (2, ⟨"", "v2", none, none, [], [], 2⟩)],
    nextId := 3 }

theorem c2_witness :
    (∀ p ∈ listSources c2Store 1, p.2.user = 1) ∧
    Source.user ⟨"s1", 0, "", "", none, 1⟩ = 1 ∧
    (∀ p ∈ listPeriods c2Store 1, p.2.user = 1) ∧
    Period.user ⟨none, none, 1⟩ = 1 ∧
    (∀ p ∈ listTagTypes c2Store 1, p.2.user = 1) ∧
    TagType.user ⟨"tt1", 1⟩ = 1 ∧
    (∀ p ∈ listTags c2Store 1, p.2.user = 1) ∧
    Tag.user ⟨"t1", "", none, [], 1⟩ = 1 ∧
    (∀ p ∈ listAliases c2Store 1, p.2.user = 1) ∧
    Alias.user ⟨"a1", 1, 1⟩ = 1 ∧
    (∀ p ∈ listFacts c2Store 1, p.2.user = 1) ∧
    Fact.user ⟨"", "v1", none, none, [], [], 1⟩ = 1 := by
  have h := c2_reads_are_owner_scoped c2Store 1
  exact ⟨h.1, h.2.1 1 _ rfl, h.2.2.1, h.2.2.2.1 1 _ rfl, h.2.2.2.2.1,
    h.2.2.2.2.2.1 1 _ rfl, h.2.2.2.2.2.2.1, h.2.2.2.2.2.2.2.1 1 _ rfl,
    h.2.2.2.2.2.2.2.2.1, h.2.2.2.2.2.2.2.2.2.1 1 _ rfl,
    h.2.2.2.2.2.2.2.2.2.2.1, h.2.2.2.2.2.2.2.2.2.2.2 1 _ rfl⟩

/-! ## Claims C3 and C10: the `Fact.save` side effect -/

theorem mem_m2mAdd_self (l : List Pk) (x : Pk) : x ∈ m2mAdd l x := by
  unfold m2mAdd
  by_cases h : x ∈ l <;> simp [h]

theorem m2mAdd_of_mem {l : List Pk} {x : Pk} (h : x ∈ l) : m2mAdd l x = l := by
  simp [m2mAdd, h]

theorem mem_m2mAdd_of_mem {l : List Pk} {y : Pk} (x : Pk) (h : y ∈ l) :
    y ∈ m2mAdd l x := by
  unfold m2mAdd
  by_cases hx : x ∈ l <;> simp [hx, h]

/-- `Fact.save` does not change the owner. -/
theorem factSave_user (f : Fact) : (factSave f).user = f.user := by
  cases hc : f.context <;> simp [factSave, hc]

/-- After `Fact.save`, whatever the context is, it is in the tag set. -/
theorem factSave_context_in_tags (g : Fact) (c : Pk)
    (h : (factSave g).context = some c) : c ∈ (factSave g).tags := by
  cases hc : g.context with
  | none => simp [factSave, hc] at h
  | some c0 =>
    simp only [factSave, hc] at h ⊢
    simp at h
    rw [← h]
    exact mem_m2mAdd_self g.tags c0

/-- `factSetM2m` does not change the owner. -/
theorem factSetM2m_user (f : Fact) (d : FactData) :
    (factSetM2m f d).user = f.user := rfl

/-- Store for C3: user 1 owns tag 5 and fact 7. -/
def c3Store : Store :=
  { emptyStore with
    tags := [(5, ⟨"t", "", none, [], 1⟩)],
    facts := [(7, ⟨"", "v", none, none, [], [], 1⟩)],
    nextId := 9 }

/-- The store after the C3 failing create: fact 9 was created with
context tag 5, yet its tag set is empty. -/
def c3BugStore : Store :=
  { emptyStore with
    tags := [(5, ⟨"t", "", none, [], 1⟩)],
    facts := [(7, ⟨"", "v", none, none, [], [], 1⟩),
              (9, ⟨"", "v", some 5, none, [], [], 1⟩)],
    nextId := 10 }

/-- The store after the C3 failing update of fact 7. -/
def c3UpdStore : Store :=
  { emptyStore with
    tags := [(5, ⟨"t", "", none, [], 1⟩)],
    facts := [(7, ⟨"", "v", some 5, none, [], [], 1⟩)],
    nextId := 9 }

/-- **C3** names a real bug.  The `Fact.context` docstring promises
"Context is always also included in the tags set", the model layer keeps
that promise (conjuncts 4 and 5: `Fact.save` puts the context into the
tag set, and the addition is idempotent), and the claim states it of
every Fact write.  But the serializer write path orders the steps the
other way round: the framework sets many-to-many fields after
`Model.save`, so an explicit `tags` list replaces the tag set that
`Fact.save` just extended.  Creating a fact with value "v", context tag
5 and tags `[]` succeeds and persists the fact with context 5 but an
empty tag set (conjuncts 1 and 2); the analogous update strips it the
same way (conjunct 3). -/
theorem c3_context_dropped_by_m2m_set :
    factCreate c3Store 1 ⟨none, some "v", some (some 5), none, some [], none⟩ =
      .ok c3BugStore 9 ∧
    lookup c3BugStore.facts 9 = some ⟨"", "v", some 5, none, [], [], 1⟩ ∧
    factUpdate c3Store 1 7 ⟨none, none, some (some 5), none, some [], none⟩ =
      .ok c3UpdStore 7 ∧
    (5 : Pk) ∈ (factSave ⟨"", "v", some 5, none, [], [], 1⟩).tags ∧
    factSave ⟨"", "v", some 5, none, [5], [], 1⟩ =
      ⟨"", "v", some 5, none, [5], [], 1⟩ := by
  refine ⟨by rfl, by rfl, by rfl, by decide, by decide⟩

/-- **C10**.  `Fact.save` only ever adds the current context to the tag
set, never removes the previous one: for a fact whose context is tag `A`
with `A` already in its tag set, saving after the context changed to `B`
keeps `A` and adds `B`, and saving after the context was cleared leaves
the tag set unchanged (so `A` stays). -/
theorem c10_save_never_removes_tags :
    ∀ (f : Fact) (A B : Pk), f.context = some A → A ∈ f.tags →
      A ∈ (factSave { f with context := some B }).tags ∧
      B ∈ (factSave { f with context := some B }).tags ∧
      (factSave { f with context := none }).tags = f.tags := by
  intro f A B _ hmem
  refine ⟨?_, ?_, ?_⟩
  · simp only [factSave]
    exact mem_m2mAdd_of_mem B hmem
  · simp only [factSave]
    exact mem_m2mAdd_self f.tags B
  · simp [factSave]

theorem c10_witness :
    (5 : Pk) ∈ (factSave { (⟨"", "v", some 5, none, [5], [], 1⟩ : Fact) with
      context := some 6 }).tags ∧
    (6 : Pk) ∈ (factSave { (⟨"", "v", some 5, none, [5], [], 1⟩ : Fact) with
      context := some 6 }).tags ∧
    (factSave { (⟨"", "v", some 5, none, [5], [], 1⟩ : Fact) with
      context := none }).tags = [5] := by
  exact c10_save_never_removes_tags ⟨"", "v", some 5, none, [5], [], 1⟩ 5 6 rfl (by decide)

/-! ## Claims C4 and C6: the period-ordering rule -/

/-- **C4**.  A Period write with both start and end present (as values)
and start strictly later than end is rejected: `PeriodSerializer.validate`
raises a `ValidationError`, surfaced as a non-field error (the
`VErr.nonField` constructor, attached to neither field) whose message
names both the start field and the end field; the create returns the 400
response and no update with that body can persist. -/
theorem c4_period_start_after_end_rejected :
    ∀ (st : Store) (u : UserId) (s e : Int), s > e →
      periodValidate ⟨some (some s), some (some e)⟩ = .ok [.nonField orderMsg] ∧
      mentions orderMsg "start" = true ∧
      mentions orderMsg "end" = true ∧
      periodCreate st u ⟨some (some s), some (some e)⟩ =
        .invalid [.nonField orderMsg] ∧
      (∀ p0 st2 k, periodUpdate st u p0 ⟨some (some s), some (some e)⟩ ≠
        .ok st2 k) := by
  intro st u s e hgt
  have hv : periodValidate ⟨some (some s), some (some e)⟩ =
      .ok [.nonField orderMsg] := by
    simp [periodValidate, periodValidateMethod, hgt]
  refine ⟨hv, by decide, by decide, ?_, ?_⟩
  · unfold periodCreate
    rw [hv]
    exact runWrite_invalid (by simp)
  · intro p0 st2 k h
    unfold periodUpdate at h
    cases hf : lookup (st.periods.filter fun p => p.2.user == u) p0 with
    | none => simp only [hf] at h; exact WResult.noConfusion h
    | some s0 =>
      simp only [hf] at h
      rcases runWrite_ok h with ⟨h1, _⟩
      rw [hv] at h1
      simp at h1

theorem c4_witness :
    periodValidate ⟨some (some 5), some (some 3)⟩ = .ok [.nonField orderMsg] ∧
    mentions orderMsg "start" = true ∧
    mentions orderMsg "end" = true ∧
    periodCreate emptyStore 1 ⟨some (some 5), some (some 3)⟩ =
      .invalid [.nonField orderMsg] ∧
    (∀ p0 st2 k, periodUpdate emptyStore 1 p0 ⟨some (some 5), some (some 3)⟩ ≠
      .ok st2 k) :=
  c4_period_start_after_end_rejected emptyStore 1 5 3 (by decide)

/-- **C6** names a real bug in the code.  The model declares `start` and
`end` optional (`null=True, blank=True`), and the claim (with the spec)
says a Period write carrying at most one of them completes validation
without the ordering rule firing.  In the code,
`PeriodSerializer.validate` evaluates `data[\x27start\x27] > data[\x27end\x27]`
unconditionally: a missing key raises an uncaught `KeyError` and an
explicit null an uncaught `TypeError`, so such writes crash (500)
instead of completing — only the ordering-error branch itself requires
both values. -/
theorem c6_optional_period_fields_crash :
    periodValidateMethod ⟨none, none⟩ = .error (.keyError "start") ∧
    periodValidateMethod ⟨some (some 0), none⟩ = .error (.keyError "end") ∧
    periodValidateMethod ⟨none, some (some 0)⟩ = .error (.keyError "start") ∧
    periodValidateMethod ⟨some (some 0), some none⟩ = .error .typeError ∧
    periodCreate emptyStore 1 ⟨none, none⟩ = .crash (.keyError "start") ∧
    periodCreate emptyStore 1 ⟨some (some 5), none⟩ = .crash (.keyError "end") := by
  exact ⟨rfl, rfl, rfl, rfl, rfl, rfl⟩

/-! ## Claim C5: the owner is stamped by the system -/

/-- **C5**.  On every successful write of every entity, the persisted
owning user is the authenticated requester.  No request body
can override it: the request-body structures mirror `Meta.fields`, which
never list `user`, so the quantification over every `d` below covers
every expressible body, and the persisted owner is `u` regardless. -/
theorem c5_owner_stamped :
    (∀ st u now d st2 k, sourceCreate st u now d = .ok st2 k →
      ∃ r, (k, r) ∈ st2.sources ∧ r.user = u) ∧
    (∀ st u p0 d st2 k, sourceUpdate st u p0 d = .ok st2 k →
      ∃ r, (k, r) ∈ st2.sources ∧ r.user = u) ∧
    (∀ st u d st2 k, periodCreate st u d = .ok st2 k →
      ∃ r, (k, r) ∈ st2.periods ∧ r.user = u) ∧
    (∀ st u p0 d st2 k, periodUpdate st u p0 d = .ok st2 k →
      ∃ r, (k, r) ∈ st2.periods ∧ r.user = u) ∧
    (∀ st u d st2 k, tagTypeCreate st u d = .ok st2 k →
      ∃ r, (k, r) ∈ st2.tagTypes ∧ r.user = u) ∧
    (∀ st u p0 d st2 k, tagTypeUpdate st u p0 d = .ok st2 k →
      ∃ r, (k, r) ∈ st2.tagTypes ∧ r.user = u) ∧
    (∀ st u d st2 k, tagCreate st u d = .ok st2 k →
      ∃ r, (k, r) ∈ st2.tags ∧ r.user = u) ∧
    (∀ st u p0 d st2 k, tagUpdate st u p0 d = .ok st2 k →
      ∃ r, (k, r) ∈ st2.tags ∧ r.user = u) ∧
    (∀ st u d st2 k, aliasCreate st u d = .ok st2 k →
      ∃ r, (k, r) ∈ st2.aliases ∧ r.user = u) ∧
    (∀ st u p0 d st2 k, aliasUpdate st u p0 d = .ok st2 k →
      ∃ r, (k, r) ∈ st2.aliases ∧ r.user = u) ∧
    (∀ st u d st2 k, factCreate st u d = .ok st2 k →
      ∃ r, (k, r) ∈ st2.facts ∧ r.user = u) ∧
    (∀ st u p0 d st2 k, factUpdate st u p0 d = .ok st2 k →
      ∃ r, (k, r) ∈ st2.facts ∧ r.user = u) := by
  refine ⟨?_, ?_, ?_, ?_, ?_, ?_, ?_, ?_, ?_, ?_, ?_, ?_⟩
  · intro st u now d st2 k h
    unfold sourceCreate at h
    rcases runWrite_ok h with ⟨_, h2⟩
    simp only [Option.some.injEq, Prod.mk.injEq] at h2
    refine ⟨persistSource u now d, ?_, rfl⟩
    rw [← h2.1, ← h2.2]
    simp
  · intro st u p0 d st2 k h
    unfold sourceUpdate at h
    cases hf : lookup (st.sources.filter fun p => p.2.user == u) p0 with
    | none => simp only [hf] at h; exact WResult.noConfusion h
    | some s =>
      simp only [hf] at h
      rcases runWrite_ok h with ⟨_, h2⟩
      simp only [Option.some.injEq, Prod.mk.injEq] at h2
      obtain ⟨hst, hk⟩ := h2
      subst hst
      subst hk
      exact ⟨_, mem_setRecord _ (lookup_filter_prop hf).1, rfl⟩
  · intro st u d st2 k h
    unfold periodCreate at h
    rcases runWrite_ok h with ⟨_, h2⟩
    simp only [Option.some.injEq, Prod.mk.injEq] at h2
    refine ⟨persistPeriod u d, ?_, rfl⟩
    rw [← h2.1, ← h2.2]
    simp
  · intro st u p0 d st2 k h
    unfold periodUpdate at h
    cases hf : lookup (st.periods.filter fun p => p.2.user == u) p0 with
    | none => simp only [hf] at h; exact WResult.noConfusion h
    | some s =>
      simp only [hf] at h
      rcases runWrite_ok h with ⟨_, h2⟩
      simp only [Option.some.injEq, Prod.mk.injEq] at h2
      obtain ⟨hst, hk⟩ := h2
      subst hst
      subst hk
      exact ⟨_, mem_setRecord _ (lookup_filter_prop hf).1, rfl⟩
  · intro st u d st2 k h
    unfold tagTypeCreate at h
    rcases runWrite_ok h with ⟨_, h2⟩
    simp only [Option.some.injEq, Prod.mk.injEq] at h2
    refine ⟨persistTagType u d, ?_, rfl⟩
    rw [← h2.1, ← h2.2]
    simp
  · intro st u p0 d st2 k h
    unfold tagTypeUpdate at h
    cases hf : lookup (st.tagTypes.filter fun p => p.2.user == u) p0 with
    | none => simp only [hf] at h; exact WResult.noConfusion h
    | some s =>
      simp only [hf] at h
      rcases runWrite_ok h with ⟨_, h2⟩
      simp only [Option.some.injEq, Prod.mk.injEq] at h2
      obtain ⟨hst, hk⟩ := h2
      subst hst
      subst hk
      exact ⟨_, mem_setRecord _ (lookup_filter_prop hf).1, rfl⟩
  · intro st u d st2 k h
    unfold tagCreate at h
    rcases runWrite_ok h with ⟨_, h2⟩
    split at h2
    · simp only [Option.some.injEq, Prod.mk.injEq] at h2
      refine ⟨persistTag u d, ?_, rfl⟩
      rw [← h2.1, ← h2.2]
      simp
    · exact absurd h2 (by simp)
  · intro st u p0 d st2 k h
    unfold tagUpdate at h
    cases hf : lookup (st.tags.filter fun p => p.2.user == u) p0 with
    | none => simp only [hf] at h; exact WResult.noConfusion h
    | some s =>
      simp only [hf] at h
      rcases runWrite_ok h with ⟨_, h2⟩
      split at h2
      · simp only [Option.some.injEq, Prod.mk.injEq] at h2
        obtain ⟨hst, hk⟩ := h2
        subst hst
        subst hk
        exact ⟨_, mem_setRecord _ (lookup_filter_prop hf).1, rfl⟩
      · exact absurd h2 (by simp)
  · intro st u d st2 k h
    unfold aliasCreate at h
    rcases runWrite_ok h with ⟨_, h2⟩
    split at h2
    · simp only [Option.some.injEq, Prod.mk.injEq] at h2
      refine ⟨persistAlias u d, ?_, rfl⟩
      rw [← h2.1, ← h2.2]
      simp
    · exact absurd h2 (by simp)
  · intro st u p0 d st2 k h
    unfold aliasUpdate at h
    cases hf : lookup (st.aliases.filter fun p => p.2.user == u) p0 with
    | none => simp only [hf] at h; exact WResult.noConfusion h
    | some s =>
      simp only [hf] at h
      rcases runWrite_ok h with ⟨_, h2⟩
      split at h2
      · simp only [Option.some.injEq, Prod.mk.injEq] at h2
        obtain ⟨hst, hk⟩ := h2
        subst hst
        subst hk
        exact ⟨_, mem_setRecord _ (lookup_filter_prop hf).1, rfl⟩
      · exact absurd h2 (by simp)
  · intro st u d st2 k h
    unfold factCreate at h
    rcases runWrite_ok h with ⟨_, h2⟩
    simp only [Option.some.injEq, Prod.mk.injEq] at h2
    refine ⟨factSetM2m (factSave (persistFact u d)) d, ?_, ?_⟩
    · rw [← h2.1, ← h2.2]
      simp
    · rw [factSetM2m_user, factSave_user]
      rfl
  · intro st u p0 d st2 k h
    unfold factUpdate at h
    cases hf : lookup (st.facts.filter fun p => p.2.user == u) p0 with
    | none => simp only [hf] at h; exact WResult.noConfusion h
    | some s =>
      simp only [hf] at h
      rcases runWrite_ok h with ⟨_, h2⟩
      simp only [Option.some.injEq, Prod.mk.injEq] at h2
      obtain ⟨hst, hk⟩ := h2
      subst hst
      subst hk
      exact ⟨_, mem_setRecord _ (lookup_filter_prop hf).1,
        by rw [factSetM2m_user, factSave_user]⟩

/-- Store for the C5 witness: user 1 owns one record of every kind. -/
def c5Store : Store :=
  { sources := [(1, ⟨"s", 0, "", "", none, 1⟩)],
    periods := [(2, ⟨none, none, 1⟩)],
    tagTypes := [(3, ⟨"tt", 1⟩)],
    tags := [(4, ⟨"t", "", none, [], 1⟩)],
    aliases := [(5, ⟨"a", 4, 1⟩)],
    facts := [(6, ⟨"", "v", none, none, [], [], 1⟩)],
    nextId := 10 }

/-- Unpack the store of a successful write (fallback `emptyStore`). -/
def okStore (r : WResult) : Store :=
  match r with
  | .ok st2 _ => st2
  | _ => emptyStore

theorem c5_witness :
    (∃ r, ((0 : Pk), r) ∈
      (okStore (sourceCreate emptyStore 1 0 ⟨some "s", none, none, none, none, none⟩)).sources ∧
      r.user = 1) ∧
    (∃ r, ((1 : Pk), r) ∈
      (okStore (sourceUpdate c5Store 1 1 ⟨none, none, none, none, none, none⟩)).sources ∧
      r.user = 1) ∧
    (∃ r, ((0 : Pk), r) ∈
      (okStore (periodCreate emptyStore 1 ⟨some (some 1), some (some 2)⟩)).periods ∧
      r.user = 1) ∧
    (∃ r, ((2 : Pk), r) ∈
      (okStore (periodUpdate c5Store 1 2 ⟨some (some 1), some (some 2)⟩)).periods ∧
      r.user = 1) ∧
    (∃ r, ((0 : Pk), r) ∈
      (okStore (tagTypeCreate emptyStore 1 ⟨some "tt"⟩)).tagTypes ∧ r.user = 1) ∧
    (∃ r, ((3 : Pk), r) ∈
      (okStore (tagTypeUpdate c5Store 1 3 ⟨none⟩)).tagTypes ∧ r.user = 1) ∧
    (∃ r, ((0 : Pk), r) ∈
      (okStore (tagCreate emptyStore 1 ⟨some "t", none, none, some []⟩)).tags ∧
      r.user = 1) ∧
    (∃ r, ((4 : Pk), r) ∈
      (okStore (tagUpdate c5Store 1 4 ⟨none, none, none, none⟩)).tags ∧
      r.user = 1) ∧
    (∃ r, ((10 : Pk), r) ∈
      (okStore (aliasCreate c5Store 1 ⟨some "a2", some 4⟩)).aliases ∧ r.user = 1) ∧
    (∃ r, ((5 : Pk), r) ∈
      (okStore (aliasUpdate c5Store 1 5 ⟨none, none⟩)).aliases ∧ r.user = 1) ∧
    (∃ r, ((0 : Pk), r) ∈
      (okStore (factCreate emptyStore 1 ⟨none, some "v", none, none, none, none⟩)).facts ∧
      r.user = 1) ∧
    (∃ r, ((6 : Pk), r) ∈
      (okStore (factUpdate c5Store 1 6 ⟨none, none, none, none, none, none⟩)).facts ∧
      r.user = 1) := by
  refine ⟨?_, ?_, ?_, ?_, ?_, ?_, ?_, ?_, ?_, ?_, ?_, ?_⟩
  · exact c5_owner_stamped.1 emptyStore 1 0
      ⟨some "s", none, none, none, none, none⟩ _ 0 (by rfl)
  · exact c5_owner_stamped.2.1 c5Store 1 1
      ⟨none, none, none, none, none, none⟩ _ 1 (by rfl)
  · exact c5_owner_stamped.2.2.1 emptyStore 1
      ⟨some (some 1), some (some 2)⟩ _ 0 (by rfl)
  · exact c5_owner_stamped.2.2.2.1 c5Store 1 2
      ⟨some (some 1), some (some 2)⟩ _ 2 (by rfl)
  · exact c5_owner_stamped.2.2.2.2.1 emptyStore 1 ⟨some "tt"⟩ _ 0 (by rfl)
  · exact c5_owner_stamped.2.2.2.2.2.1 c5Store 1 3 ⟨none⟩ _ 3 (by rfl)
  · exact c5_owner_stamped.2.2.2.2.2.2.1 emptyStore 1
      ⟨some "t", none, none, some []⟩ _ 0 (by rfl)
  · exact c5_owner_stamped.2.2.2.2.2.2.2.1 c5Store 1 4
      ⟨none, none, none, none⟩ _ 4 (by rfl)
  · exact c5_owner_stamped.2.2.2.2.2.2.2.2.1 c5Store 1
      ⟨some "a2", some 4⟩ _ 10 (by rfl)
  · exact c5_owner_stamped.2.2.2.2.2.2.2.2.2.1 c5Store 1 5 ⟨none, none⟩ _ 5 (by rfl)
  · exact c5_owner_stamped.2.2.2.2.2.2.2.2.2.2.1 emptyStore 1
      ⟨none, some "v", none, none, none, none⟩ _ 0 (by rfl)
  · exact c5_owner_stamped.2.2.2.2.2.2.2.2.2.2.2 c5Store 1 6
      ⟨none, none, none, none, none, none⟩ _ 6 (by rfl)

/-! ## Claim C7: deletion propagation -/

/-- **C7**.  Deletion follows the declared reference semantics: deleting
a TagType keeps every Tag, nulling the type reference of those that
pointed at it; deleting a Period keeps every Fact, nulling the period
reference of those that pointed at it; deleting a Tag removes every Fact
whose context it was; deleting a User removes every Source, Period,
TagType, Tag, Alias and Fact that user owns. -/
theorem c7_delete_propagation :
    ∀ (st : Store) (id : Pk) (u : UserId),
      (∀ pk t, lookup st.tags pk = some t →
        lookup (deleteTagType st id).tags pk =
          some (if t.type == some id then { t with type := none } else t)) ∧
      (∀ pk f, lookup st.facts pk = some f →
        lookup (deletePeriod st id).facts pk =
          some (if f.period == some id then { f with period := none } else f)) ∧
      (∀ p ∈ (deleteTag st id).facts, p.2.context ≠ some id) ∧
      (∀ p ∈ (deleteUser st u).sources, p.2.user ≠ u) ∧
      (∀ p ∈ (deleteUser st u).periods, p.2.user ≠ u) ∧
      (∀ p ∈ (deleteUser st u).tagTypes, p.2.user ≠ u) ∧
      (∀ p ∈ (deleteUser st u).tags, p.2.user ≠ u) ∧
      (∀ p ∈ (deleteUser st u).aliases, p.2.user ≠ u) ∧
      (∀ p ∈ (deleteUser st u).facts, p.2.user ≠ u) := by
  intro st id u
  refine ⟨?_, ?_, ?_, ?_, ?_, ?_, ?_, ?_, ?_⟩
  · intro pk t h
    unfold deleteTagType
    simp only [lookup_mapVals, h, Option.map]
  · intro pk f h
    unfold deletePeriod
    simp only [lookup_mapVals, h, Option.map]
  · intro p hp
    simp only [deleteTag] at hp
    rcases mem_mapVals_filter hp with ⟨p0, _, hq, hEq⟩
    subst hEq
    simp at hq
    simpa using hq
  · intro p hp
    simp only [deleteUser] at hp
    have := (List.mem_filter.mp hp).2
    simp at this
    exact this
  · intro p hp
    simp only [deleteUser] at hp
    have := (List.mem_filter.mp hp).2
    simp at this
    exact this
  · intro p hp
    simp only [deleteUser] at hp
    have := (List.mem_filter.mp hp).2
    simp at this
    exact this
  · intro p hp
    simp only [deleteUser] at hp
    rcases mem_mapVals_filter hp with ⟨p0, _, hq, hEq⟩
    subst hEq
    simp at hq
    simpa using hq
  · intro p hp
    simp only [deleteUser] at hp
    have := (List.mem_filter.mp hp).2
    simp at this
    exact this.1
  · intro p hp
    simp only [deleteUser] at hp
    rcases mem_mapVals_filter hp with ⟨p0, _, hq, hEq⟩
    subst hEq
    simp at hq
    simpa using hq.1

/-- Store for the C7 witness: user 1 owns tag type 1, tag 2 (typed 1),
period 3, fact 4 (period 3, context 2), alias 5 and source 6; user 2
owns source 7. -/
def c7Store : Store :=
  { sources := [(6, ⟨"s", 0, "", "", none, 1⟩), (7, ⟨"s2", 0, "", "", none, 2⟩)],
    periods := [(3, ⟨none, none, 1⟩)],
    tagTypes := [(1, ⟨"tt", 1⟩)],
    tags := [(2, ⟨"t", "", some 1, [], 1⟩)],
    aliases := [(5, ⟨"a", 2, 1⟩)],
    facts := [(4, ⟨"", "v", some 2, some 3, [2], [], 1⟩)],
    nextId := 8 }

theorem c7_witness :
    lookup (deleteTagType c7Store 1).tags 2 =
      some (if (⟨"t", "", some 1, [], 1⟩ : Tag).type == some 1
        then { (⟨"t", "", some 1, [], 1⟩ : Tag) with type := none }
        else ⟨"t", "", some 1, [], 1⟩) ∧
    lookup (deletePeriod c7Store 3).facts 4 =
      some (if (⟨"", "v", some 2, some 3, [2], [], 1⟩ : Fact).period == some 3
        then { (⟨"", "v", some 2, some 3, [2], [], 1⟩ : Fact) with period := none }
        else ⟨"", "v", some 2, some 3, [2], [], 1⟩) ∧
    (∀ p ∈ (deleteTag c7Store 2).facts, p.2.context ≠ some 2) ∧
    (∀ p ∈ (deleteUser c7Store 1).sources, p.2.user ≠ 1) ∧
    (∀ p ∈ (deleteUser c7Store 1).periods, p.2.user ≠ 1) ∧
    (∀ p ∈ (deleteUser c7Store 1).tagTypes, p.2.user ≠ 1) ∧
    (∀ p ∈ (deleteUser c7Store 1).tags, p.2.user ≠ 1) ∧
    (∀ p ∈ (deleteUser c7Store 1).aliases, p.2.user ≠ 1) ∧
    (∀ p ∈ (deleteUser c7Store 1).facts, p.2.user ≠ 1) := by
  refine ⟨?_, ?_, ?_, ?_, ?_, ?_, ?_, ?_, ?_⟩
  · exact (c7_delete_propagation c7Store 1 1).1 2 ⟨"t", "", some 1, [], 1⟩ (by rfl)
  · exact (c7_delete_propagation c7Store 3 1).2.1 4
      ⟨"", "v", some 2, some 3, [2], [], 1⟩ (by rfl)
  · exact (c7_delete_propagation c7Store 2 1).2.2.1
  · exact (c7_delete_propagation c7Store 0 1).2.2.2.1
  · exact (c7_delete_propagation c7Store 0 1).2.2.2.2.1
  · exact (c7_delete_propagation c7Store 0 1).2.2.2.2.2.1
  · exact (c7_delete_propagation c7Store 0 1).2.2.2.2.2.2.1
  · exact (c7_delete_propagation c7Store 0 1).2.2.2.2.2.2.2.1
  · exact (c7_delete_propagation c7Store 0 1).2.2.2.2.2.2.2.2

/-! ## Claim C8: per-user name uniqueness of Tag and Alias -/

/-- Unpack the key of a successful write (fallback 0). -/
def okPk (r : WResult) : Pk :=
  match r with
  | .ok _ k => k
  | _ => 0

/-- Store for C8: user 1 owns tag 1 named "x". -/
def c8TagStore : Store :=
  { emptyStore with tags := [(1, ⟨"x", "", none, [], 1⟩)], nextId := 2 }

/-- Store for C8: user 2 owns tag 1; user 1 owns alias 5 named "x". -/
def c8AliasStore : Store :=
  { emptyStore with
    tags := [(1, ⟨"t", "", none, [], 2⟩)],
    aliases := [(5, ⟨"x", 1, 1⟩)],
    nextId := 6 }

/-- **C8**.  Tag names and Alias names are unique per user: creating a
Tag (or Alias) whose name duplicates one the requester already owns
never succeeds (the unique-together constraint stops the insert), while
a user may create a Tag (or Alias) carrying the same name as another
user. -/
theorem c8_name_unique_per_user :
    (∀ st u (d : TagData) pk0 t0 st2 k, (pk0, t0) ∈ st.tags → t0.user = u →
      d.name = some t0.name → tagCreate st u d ≠ .ok st2 k) ∧
    (∀ st u (d : AliasData) pk0 a0 st2 k, (pk0, a0) ∈ st.aliases →
      a0.user = u → d.name = some a0.name → aliasCreate st u d ≠ .ok st2 k) ∧
    tagCreate c8TagStore 2 ⟨some "x", none, none, some []⟩ =
      .ok (okStore (tagCreate c8TagStore 2 ⟨some "x", none, none, some []⟩))
        (okPk (tagCreate c8TagStore 2 ⟨some "x", none, none, some []⟩)) ∧
    aliasCreate c8AliasStore 2 ⟨some "x", some 1⟩ =
      .ok (okStore (aliasCreate c8AliasStore 2 ⟨some "x", some 1⟩))
        (okPk (aliasCreate c8AliasStore 2 ⟨some "x", some 1⟩)) := by
  refine ⟨?_, ?_, by rfl, by rfl⟩
  · intro st u d pk0 t0 st2 k hmem ht0 hd h
    unfold tagCreate at h
    rcases runWrite_ok h with ⟨_, h2⟩
    split at h2
    · rename_i hcond
      unfold tagUniqueOk at hcond
      have hx := List.all_eq_true.mp hcond (pk0, t0) hmem
      simp [persistTag, hd, ht0] at hx
    · exact absurd h2 (by simp)
  · intro st u d pk0 a0 st2 k hmem ha0 hd h
    unfold aliasCreate at h
    rcases runWrite_ok h with ⟨_, h2⟩
    split at h2
    · rename_i hcond
      unfold aliasUniqueOk at hcond
      have hx := List.all_eq_true.mp hcond (pk0, a0) hmem
      simp [persistAlias, hd, ha0] at hx
    · exact absurd h2 (by simp)

theorem c8_witness :
    tagCreate c8TagStore 1 ⟨some "x", none, none, some []⟩ ≠
      WResult.ok emptyStore 0 ∧
    aliasCreate c8AliasStore 1 ⟨some "x", some 1⟩ ≠ WResult.ok emptyStore 0 := by
  constructor
  · exact c8_name_unique_per_user.1 c8TagStore 1 ⟨some "x", none, none, some []⟩
      1 ⟨"x", "", none, [], 1⟩ emptyStore 0 (by decide) rfl rfl
  · exact c8_name_unique_per_user.2.1 c8AliasStore 1 ⟨some "x", some 1⟩
      5 ⟨"x", 1, 1⟩ emptyStore 0 (by decide) rfl rfl

/-! ## Claim C9: the plain Source example -/

/-- The store after the C9 create. -/
def c9Result : Store :=
  { emptyStore with sources := [(0, ⟨"s", 100, "", "", none, 7⟩)], nextId := 1 }

/-- **C9**.  Creating a Source with only the name field "s" succeeds —
every other field falls back to its default (`accessed` to the current
time, blank strings, null published date, no fact links) — and a
subsequent retrieve by the creator returns the record with name "s". -/
theorem c9_create_source_name_only :
    sourceCreate emptyStore 7 100 ⟨some "s", none, none, none, none, none⟩ =
      .ok c9Result 0 ∧
    (retrieveSource c9Result 7 0).map Source.name = some "s" := by
  exact ⟨by rfl, by rfl⟩

end Ibis
